import Mathlib

/-!
Verification of the certificate-verification circuit
(`CertificateVerificationCircuit` in `src/lib.rs`).

The circuit glues together three gadgets — a range-check lookup table, a
big-integer RSA verifier (`halo2_rsa`) and a dynamic SHA-256 gadget
(`halo2_dynamic_sha256`) — and exposes the RSA modulus limbs and the
SHA-256 digest bytes as public instance values.  The gadget crates are not
part of this repository's sources, so their observable behaviour
(SHA-256, PKCS#1 v1.5 EMSA encoding, modular exponentiation by repeated
squaring, limb decomposition and per-cell range checks) is modelled from
the specification; the glue (`configure`/`synthesize`, the two-pass
region discipline, the instance binding) is translated from `src/lib.rs`.
-/

set_option maxRecDepth 10000

namespace ZkCert

/-! ## SHA-256 (modelled from the spec: the `halo2_dynamic_sha256` gadget
computes the standard SHA-256 digest of the message inside the circuit;
we model its input/output behaviour as the standard SHA-256 function over
byte lists, with 32-bit words represented as naturals reduced mod 2^32). -/

/-- The 32-bit word modulus. -/
def w32 : ℕ := 2 ^ 32

/-- Right rotation of a 32-bit word. -/
def rotr (n x : ℕ) : ℕ := ((x >>> n) ||| (x <<< (32 - n))) % w32

/-- SHA-256 big sigma 0. -/
def bigSigma0 (x : ℕ) : ℕ := rotr 2 x ^^^ rotr 13 x ^^^ rotr 22 x

/-- SHA-256 big sigma 1. -/
def bigSigma1 (x : ℕ) : ℕ := rotr 6 x ^^^ rotr 11 x ^^^ rotr 25 x

/-- SHA-256 small sigma 0. -/
def smallSigma0 (x : ℕ) : ℕ := rotr 7 x ^^^ rotr 18 x ^^^ (x >>> 3)

/-- SHA-256 small sigma 1. -/
def smallSigma1 (x : ℕ) : ℕ := rotr 17 x ^^^ rotr 19 x ^^^ (x >>> 10)

/-- SHA-256 choose function; the complement of `x` is taken against the
32-bit all-ones word. -/
def chF (x y z : ℕ) : ℕ := (x &&& y) ^^^ ((x ^^^ (w32 - 1)) &&& z)

/-- SHA-256 majority function. -/
def majF (x y z : ℕ) : ℕ := (x &&& y) ^^^ (x &&& z) ^^^ (y &&& z)

/-- The SHA-256 round constants. -/
def shaK : List ℕ :=
  [1116352408, 1899447441, 3049323471, 3921009573, 961987163,
   1508970993, 2453635748, 2870763221, 3624381080, 310598401,
   607225278, 1426881987, 1925078388, 2162078206, 2614888103,
   3248222580, 3835390401, 4022224774, 264347078, 604807628,
   770255983, 1249150122, 1555081692, 1996064986, 2554220882,
   2821834349, 2952996808, 3210313671, 3336571891, 3584528711,
   113926993, 338241895, 666307205, 773529912, 1294757372,
   1396182291, 1695183700, 1986661051, 2177026350, 2456956037,
   2730485921, 2820302411, 3259730800, 3345764771, 3516065817,
   3600352804, 4094571909, 275423344, 430227734, 506948616,
   659060556, 883997877, 958139571, 1322822218, 1537002063,
   1747873779, 1955562222, 2024104815, 2227730452, 2361852424,
   2428436474, 2756734187, 3204031479, 3329325298]

/-- The SHA-256 working state: eight 32-bit words. -/
structure Sha256State where
  a : ℕ
  b : ℕ
  c : ℕ
  d : ℕ
  e : ℕ
  f : ℕ
  g : ℕ
  h : ℕ
deriving DecidableEq

/-- The SHA-256 initial hash state. -/
def initState : Sha256State :=
  ⟨1779033703, 3144134277, 1013904242, 2773480762,
   1359893119, 2600822924, 528734635, 1541459225⟩

/-- One SHA-256 compression round; `kw` pairs the round constant with the
message-schedule word. -/
def shaRound (s : Sha256State) (kw : ℕ × ℕ) : Sha256State :=
  let t1 := (s.h + bigSigma1 s.e + chF s.e s.f s.g + kw.1 + kw.2) % w32
  let t2 := (bigSigma0 s.a + majF s.a s.b s.c) % w32
  ⟨(t1 + t2) % w32, s.a, s.b, s.c, (s.d + t1) % w32, s.e, s.f, s.g⟩

/-- Split a list into chunks of `k` elements; `fuel` bounds the recursion
and is instantiated with the list length. -/
def chunkList (k : ℕ) : ℕ → List ℕ → List (List ℕ)
  | 0, _ => []
  | _ + 1, [] => []
  | fuel + 1, l => l.take k :: chunkList k fuel (l.drop k)

/-- Big-endian word from a list of bytes. -/
def beWord (bs : List ℕ) : ℕ := bs.foldl (fun acc b => acc * 256 + b) 0

/-- The sixteen 32-bit big-endian words of a 64-byte block. -/
def blockWords (block : List ℕ) : List ℕ :=
  (chunkList 4 block.length block).map beWord

/-- One message-schedule extension step; `rev` is the schedule so far in
reverse order, so index 1 is W[t-2], 6 is W[t-7], 14 is W[t-15] and 15
is W[t-16]. -/
def scheduleStep (rev : List ℕ) : ℕ :=
  (smallSigma1 (rev.getD 1 0) + rev.getD 6 0 + smallSigma0 (rev.getD 14 0)
    + rev.getD 15 0) % w32

/-- Extend the reversed message schedule by `n` words. -/
def scheduleExtend : ℕ → List ℕ → List ℕ
  | 0, rev => rev
  | n + 1, rev => scheduleExtend n (scheduleStep rev :: rev)

/-- The full 64-word message schedule of a block. -/
def messageSchedule (ws : List ℕ) : List ℕ :=
  (scheduleExtend 48 ws.reverse).reverse

/-- Process one 64-byte block: 64 rounds and the Davies–Meyer addition. -/
def compressBlock (st : Sha256State) (block : List ℕ) : Sha256State :=
  let ws := messageSchedule (blockWords block)
  let fin := (shaK.zip ws).foldl shaRound st
  ⟨(st.a + fin.a) % w32, (st.b + fin.b) % w32, (st.c + fin.c) % w32,
   (st.d + fin.d) % w32, (st.e + fin.e) % w32, (st.f + fin.f) % w32,
   (st.g + fin.g) % w32, (st.h + fin.h) % w32⟩

/-- Big-endian bytes of the 64-bit message bit length. -/
def lenBytesBE (l : ℕ) : List ℕ :=
  (List.range 8).map (fun i => ((8 * l) >>> (8 * (7 - i))) % 256)

/-- Standard SHA-256 length padding: a 0x80 byte, zeros to 56 mod 64, then
the 64-bit big-endian bit length. -/
def shaPad (msg : List ℕ) : List ℕ :=
  msg ++ 128 :: (List.replicate ((120 - (msg.length + 1) % 64) % 64) 0
    ++ lenBytesBE msg.length)

/-- The eight words of a SHA-256 state, in output order. -/
def stateWords (s : Sha256State) : List ℕ :=
  [s.a, s.b, s.c, s.d, s.e, s.f, s.g, s.h]

/-- Big-endian bytes of one 32-bit word. -/
def wordBytes (x : ℕ) : List ℕ :=
  [(x >>> 24) % 256, (x >>> 16) % 256, (x >>> 8) % 256, x % 256]

/-- SHA-256 of a byte list, as the 32-byte digest. -/
def sha256 (msg : List ℕ) : List ℕ :=
  ((stateWords ((chunkList 64 (shaPad msg).length (shaPad msg)).foldl
      compressBlock initState)).map wordBytes).flatten

example : sha256 [] =
    [227, 176, 196, 66, 152, 252, 28, 20, 154, 251, 244, 200, 153, 111,
     185, 36, 39, 174, 65, 228, 100, 155, 147, 76, 164, 149, 153, 27,
     120, 82, 184, 85] := by decide

example : sha256 [97, 98, 99] =
    [186, 120, 22, 191, 143, 1, 207, 234, 65, 65, 64, 222, 93, 174, 34,
     35, 176, 3, 97, 163, 150, 23, 122, 156, 180, 16, 255, 97, 242, 0,
     21, 173] := by decide

/-! ## RSA PKCS#1 v1.5 (modelled from the spec: the `halo2_rsa` gadget
computes `s^e mod n` by repeated squaring with the fixed exponent and
compares the result with the EMSA-PKCS1-v1.5 encoding of the digest). -/

/-- Modular exponentiation by repeated squaring, with explicit fuel; the
fuel is instantiated with the exponent, which bounds the number of
halvings.  Modelled from the spec: the RSA gadget performs the fixed
square-and-multiply sequence determined by the binary representation of
the compile-time exponent. -/
def powModFuel : ℕ → ℕ → ℕ → ℕ → ℕ
  | 0, _, _, n => 1 % n
  | fuel + 1, b, e, n =>
    if e = 0 then 1 % n
    else
      let r := powModFuel fuel (b * b % n) (e / 2) n
      if e % 2 = 1 then r * b % n else r

/-- Modular exponentiation `b ^ e mod n` by repeated squaring. -/
def powMod (b e n : ℕ) : ℕ := powModFuel e b e n

/-- The ASN.1 DigestInfo header for SHA-256 used by EMSA-PKCS1-v1.5. -/
def sha256DigestInfo : List ℕ :=
  [48, 49, 48, 13, 6, 9, 96, 134, 72, 1,
   101, 3, 4, 2, 1, 5, 0, 4, 32]

/-- Modelled from the spec: the EMSA-PKCS1-v1.5 encoding of a SHA-256
digest for a 256-byte (2048-bit) modulus: `0x00 0x01`, 202 bytes of
`0xFF`, `0x00`, the DigestInfo header, then the 32 digest bytes. -/
def emsaPkcs1v15Bytes (digest : List ℕ) : List ℕ :=
  0 :: 1 :: (List.replicate 202 255
    ++ (0 :: (sha256DigestInfo ++ digest)))

/-- Big-endian integer value of a byte list. -/
def bytesToNatBE (bs : List ℕ) : ℕ := bs.foldl (fun acc b => acc * 256 + b) 0

/-- The EMSA-PKCS1-v1.5 encoding as an integer. -/
def emsaPkcs1v15Nat (digest : List ℕ) : ℕ := bytesToNatBE (emsaPkcs1v15Bytes digest)

/-- Little-endian limb decomposition of a big integer, as computed by
`decompose_biguint` in `halo2_rsa::big_uint` (modelled from the spec:
a limb-encoded integer is the base-2^limbBits positional list of
`numLimbs` limbs, least-significant limb first). -/
def decompose_biguint (n numLimbs limbBits : ℕ) : List ℕ :=
  (List.range numLimbs).map (fun i => (n >>> (limbBits * i)) % 2 ^ limbBits)

/-! ## The circuit glue, translated from `src/lib.rs`. -/

/-- The circuit structure of `src/lib.rs`: modulus, signature and message
bytes (the `PhantomData` field carries no data and is dropped). -/
structure CertificateVerificationCircuit where
  n_big : ℕ
  sign_big : ℕ
  msg : List ℕ
deriving DecidableEq

/-- Modulus bit length (`BITS_LEN` in `src/lib.rs`). -/
def BITS_LEN : ℕ := 2048

/-- Limb width (`LIMB_BITS` in `src/lib.rs`). -/
def LIMB_BITS : ℕ := 64

/-- Exponent limb width (`EXP_LIMB_BITS` in `src/lib.rs`). -/
def EXP_LIMB_BITS : ℕ := 5

/-- The fixed public exponent (`DEFAULT_E` in `src/lib.rs`). -/
def DEFAULT_E : ℕ := 65537

/-- Maximum message byte length (`MSG_LEN` in `src/lib.rs`). -/
def MSG_LEN : ℕ := 1280

/-- Range-check lookup bit width (`LOOKUP_BITS` in `src/lib.rs`). -/
def LOOKUP_BITS : ℕ := 12

/-- SHA-256 gadget lookup bit width (`SHA256_LOOKUP_BITS`). -/
def SHA256_LOOKUP_BITS : ℕ := 8

/-- The circuit size exponent (`DEGREE` in `src/lib.rs`, also the `k`
passed to the mock prover in the test). -/
def DEGREE : ℕ := 16

/-- The number of rows of the circuit: the proving backend always uses
`2 ^ k` rows for size exponent `k`. -/
def numRows : ℕ := 2 ^ DEGREE

/-- The `SKIP_FIRST_PASS` constant of `halo2_base`: with the simple
floor planner the region callback runs twice and the first run is
skipped. -/
def SKIP_FIRST_PASS : Bool := true

/-- Identities for the witness cells the synthesis allocates: the 32
modulus limbs, the 32 signature limbs, the message bytes, the 32 digest
bytes and the verification flag. -/
inductive CellTag where
  | nLimb (i : ℕ)
  | signLimb (i : ℕ)
  | msgByte (i : ℕ)
  | digestByte (i : ℕ)
  | validFlag
deriving DecidableEq

/-- The constraints the synthesis places on cells: `cellEqConst` is the
`assert_is_const` equality with a fixed constant, `rangeCheck` is a
lookup-table range check at a given bit width. -/
inductive Constraint where
  | cellEqConst (t : CellTag) (v : ℕ)
  | rangeCheck (t : CellTag) (bits : ℕ)
deriving DecidableEq

/-- The synthesis steps, for the ordering claims. -/
inductive SynthStep where
  | loadSha256Tables
  | loadRangeLookupTable
  | assignPublicKeyStep
  | assignSignatureStep
  | verifySignatureStep
  | assertFlagStep
  | finalizeRangeStep
  | constrainNInstance (i : ℕ)
  | constrainHashInstance (i : ℕ)
deriving DecidableEq

/-- Witness-preparation failures: a witness integer that does not fit the
declared bit length, or a message longer than the compiled maximum. -/
inductive SynthError where
  | witnessRange
  | msgTooLong
deriving DecidableEq

/-- Rust panics reachable from the circuit impl. -/
inductive RustPanic where
  | notImplemented
deriving DecidableEq

/-- The configuration produced by `configure`: the two instance columns,
modelled by their allocation indices (`meta.instance_column()` allocates
fresh columns sequentially, so the two columns are distinct). -/
structure CertificateVerificationConfig where
  n_instance : ℕ
  hash_instance : ℕ
deriving DecidableEq

/-- The `configure` step of `src/lib.rs`, restricted to the data the
claims mention: it allocates the modulus instance column first and the
digest instance column second. -/
def configure : CertificateVerificationConfig := ⟨0, 1⟩

/-- Modelled from the spec: the `verify_pkcs1v15_signature` operation of
`halo2_rsa::RSASignatureVerifier` hashes the message with the SHA-256
gadget, computes `s^e mod n` by repeated squaring, and returns a flag
that is 1 exactly when the result equals the EMSA-PKCS1-v1.5 encoding of
the digest, together with the 32 digest byte values. -/
def verify_pkcs1v15_signature (n : ℕ) (msg : List ℕ) (s : ℕ) : ℕ × List ℕ :=
  (if powMod s DEFAULT_E n = emsaPkcs1v15Nat (sha256 msg) then 1 else 0,
   sha256 msg)

/-- The value of the verification flag for a circuit's witnesses. -/
def isValidFlag (c : CertificateVerificationCircuit) : ℕ :=
  (verify_pkcs1v15_signature c.n_big c.msg c.sign_big).1

/-- The witness value assigned to each cell during synthesis. -/
def assignment (c : CertificateVerificationCircuit) : CellTag → ℕ
  | .nLimb i => (decompose_biguint c.n_big 32 64).getD i 0
  | .signLimb i => (decompose_biguint c.sign_big 32 64).getD i 0
  | .msgByte i => c.msg.getD i 0
  | .digestByte i => (sha256 c.msg).getD i 0
  | .validFlag => isValidFlag c

/-- The data produced by the region-assignment callback of `synthesize`:
the cells returned for instance binding (`public_key_cells`,
`hashed_msg_cells` in `src/lib.rs`), the cells it allocated, the
constraints it placed, the steps it performed, the verification flag
value and the exponent used. -/
structure RegionOutput where
  public_key_cells : List CellTag
  hashed_msg_cells : List CellTag
  allocatedCells : List CellTag
  constraints : List Constraint
  steps : List SynthStep
  is_valid : ℕ
  exponent : ℕ
deriving DecidableEq

/-- The result of the skipped first pass of the region callback: no
allocation, no constraints, empty cell lists. -/
def emptyRegionOutput : RegionOutput := ⟨[], [], [], [], [], 0, 0⟩

/-- The result of the real (second) pass of the region callback once the
witness checks have passed: the public key and signature are assigned as
range-checked 64-bit limbs, the verifier gadget range-checks the message
and digest bytes and produces the flag, and `assert_is_const` pins the
flag to 1. -/
def mainRegionOutput (c : CertificateVerificationCircuit) : RegionOutput :=
  { public_key_cells := (List.range 32).map .nLimb,
    hashed_msg_cells := (List.range 32).map .digestByte,
    allocatedCells := (List.range 32).map .nLimb
      ++ (List.range 32).map .signLimb
      ++ (List.range c.msg.length).map .msgByte
      ++ (List.range 32).map .digestByte ++ [.validFlag],
    constraints := (List.range 32).map (fun i => .rangeCheck (.nLimb i) LIMB_BITS)
      ++ (List.range 32).map (fun i => .rangeCheck (.signLimb i) LIMB_BITS)
      ++ (List.range c.msg.length).map (fun i => .rangeCheck (.msgByte i) 8)
      ++ (List.range 32).map (fun i => .rangeCheck (.digestByte i) 8)
      ++ [.cellEqConst .validFlag 1],
    steps := [.assignPublicKeyStep, .assignSignatureStep,
      .verifySignatureStep, .assertFlagStep, .finalizeRangeStep],
    is_valid := (verify_pkcs1v15_signature c.n_big c.msg c.sign_big).1,
    exponent := DEFAULT_E }

/-- The real work of the region callback: `assign_public_key` and
`assign_signature` fail if the witness integer does not fit `BITS_LEN`
bits; the SHA-256 gadget fails if the message is longer than the
compiled maximum or a message entry is not a byte. -/
def regionMain (c : CertificateVerificationCircuit) :
    Except SynthError RegionOutput :=
  if c.n_big < 2 ^ BITS_LEN then
    if c.sign_big < 2 ^ BITS_LEN then
      if c.msg.length ≤ MSG_LEN then
        if c.msg.all (fun b => decide (b < 256)) then
          .ok (mainRegionOutput c)
        else .error .witnessRange
      else .error .msgTooLong
    else .error .witnessRange
  else .error .witnessRange

/-- The region-assignment callback of `synthesize`, with the
`first_pass` flag: the first invocation performs no work and returns
empty cell vectors, mirroring the `if first_pass` branch in
`src/lib.rs`. -/
def regionAssign (c : CertificateVerificationCircuit) (first_pass : Bool) :
    Except SynthError RegionOutput :=
  if first_pass then .ok emptyRegionOutput else regionMain c

/-- The full synthesis output: the region data, the values placed in the
two instance columns, the copy constraints binding cells to instance
column slots, and the step trace. -/
structure SynthOutput where
  region : RegionOutput
  nInstanceVals : List ℕ
  hashInstanceVals : List ℕ
  instanceBindings : List (ℕ × ℕ × CellTag)
  trace : List SynthStep
deriving DecidableEq

/-- The instance-binding stage of `synthesize`: the two `for` loops copy
each public-key limb cell into slot `i` of `n_instance` and each digest
byte cell into slot `i` of `hash_instance`. -/
def bindInstances (c : CertificateVerificationCircuit) (reg : RegionOutput) :
    SynthOutput :=
  { region := reg,
    nInstanceVals := reg.public_key_cells.map (assignment c),
    hashInstanceVals := reg.hashed_msg_cells.map (assignment c),
    instanceBindings :=
      (reg.public_key_cells.enum.map fun p => (configure.n_instance, p.1, p.2))
        ++ (reg.hashed_msg_cells.enum.map fun p =>
              (configure.hash_instance, p.1, p.2)),
    trace := .loadSha256Tables :: .loadRangeLookupTable :: (reg.steps
      ++ (reg.public_key_cells.enum.map fun p => .constrainNInstance p.1)
      ++ (reg.hashed_msg_cells.enum.map fun p => .constrainHashInstance p.1)) }

/-- The `synthesize` method of `src/lib.rs`: load the SHA-256 gadget
tables, load the range-check lookup table, run the region callback twice
(first pass skipped), then bind the returned cells to the instance
columns. -/
def synthesize (c : CertificateVerificationCircuit) :
    Except SynthError SynthOutput :=
  match regionAssign c SKIP_FIRST_PASS with
  | .error e => .error e
  | .ok _ =>
    match regionAssign c false with
    | .error e => .error e
    | .ok reg => .ok (bindInstances c reg)

/-- The synthesis output for a circuit whose witness checks pass. -/
def synthOutput (c : CertificateVerificationCircuit) : SynthOutput :=
  bindInstances c (mainRegionOutput c)

/-- Evaluation of a constraint at an assignment of cell values. -/
def evalConstraint (asg : CellTag → ℕ) : Constraint → Bool
  | .cellEqConst t v => asg t == v
  | .rangeCheck t bits => decide (asg t < 2 ^ bits)

/-- A synthesized circuit is satisfiable when every constraint holds at
the assigned cell values. -/
def satisfiable (c : CertificateVerificationCircuit) (out : SynthOutput) :
    Bool :=
  out.region.constraints.all (evalConstraint (assignment c))

/-- The `without_witnesses` method of `src/lib.rs`, which is
`unimplemented!()`: every call panics. -/
def without_witnesses (_c : CertificateVerificationCircuit) :
    Except RustPanic CertificateVerificationCircuit :=
  .error .notImplemented

/-- A concrete circuit used by the witness theorems. -/
def sampleCircuit : CertificateVerificationCircuit := ⟨1, 0, []⟩

/-! ## Helper lemmas -/

/-- Transfer a property from the members of a list and the default value
to any `getD` access. -/
theorem getD_prop {P : ℕ → Prop} {l : List ℕ} {d : ℕ} (i : ℕ)
    (hl : ∀ x ∈ l, P x) (hd : P d) : P (l.getD i d) := by
  rcases Nat.lt_or_ge i l.length with h | h
  · rw [List.getD_eq_getElem l d h]
    exact hl _ (l.getElem_mem h)
  · rw [List.getD_eq_default l d h]
    exact hd

/-- The fuelled repeated-squaring loop computes modular exponentiation
whenever the fuel dominates the exponent. -/
theorem powModFuel_eq (fuel : ℕ) :
    ∀ b e n : ℕ, 0 < n → e ≤ fuel → powModFuel fuel b e n = b ^ e % n := by
  induction fuel with
  | zero =>
    intro b e n _ he
    have he0 : e = 0 := Nat.le_zero.mp he
    subst he0
    simp [powModFuel]
  | succ f ih =>
    intro b e n hn he
    by_cases h0 : e = 0
    · subst h0; simp [powModFuel]
    · have h2 : e / 2 ≤ f := by omega
      have hrec : powModFuel f (b * b % n) (e / 2) n = (b * b) ^ (e / 2) % n := by
        rw [ih (b * b % n) (e / 2) n hn h2, ← Nat.pow_mod]
      have hpow : (b * b) ^ (e / 2) = b ^ (2 * (e / 2)) := by
        rw [pow_mul, pow_two]
      simp only [powModFuel, if_neg h0]
      rw [hrec, hpow]
      rcases Nat.mod_two_eq_zero_or_one e with hpar | hpar
      · rw [if_neg (by omega : ¬ e % 2 = 1)]
        have h : 2 * (e / 2) = e := by omega
        rw [h]
      · rw [if_pos hpar, Nat.mod_mul_mod, ← pow_succ]
        have h : 2 * (e / 2) + 1 = e := by omega
        rw [h]

/-- Repeated squaring agrees with mathematical modular exponentiation. -/
theorem powMod_eq (b e n : ℕ) (hn : 0 < n) : powMod b e n = b ^ e % n :=
  powModFuel_eq e b e n hn (Nat.le_refl e)

/-- A limb decomposition has exactly the requested number of limbs. -/
theorem decompose_biguint_length (n k w : ℕ) :
    (decompose_biguint n k w).length = k := by
  simp [decompose_biguint]

/-- Every limb read from a decomposition fits the limb width. -/
theorem decompose_biguint_getD_lt (n k w i : ℕ) :
    (decompose_biguint n k w).getD i 0 < 2 ^ w := by
  refine @getD_prop (fun x => x < 2 ^ w) _ _ i ?_ (pow_pos (by norm_num) w)
  intro x hx
  simp only [decompose_biguint, List.mem_map, List.mem_range] at hx
  obtain ⟨j, _, rfl⟩ := hx
  exact Nat.mod_lt _ (pow_pos (by norm_num) w)

/-- A SHA-256 digest has 32 bytes. -/
theorem sha256_length (msg : List ℕ) : (sha256 msg).length = 32 := by
  simp [sha256, stateWords, wordBytes]

/-- Every byte read from a SHA-256 digest is below 256. -/
theorem sha256_getD_lt (msg : List ℕ) (i : ℕ) :
    (sha256 msg).getD i 0 < 256 := by
  refine @getD_prop (fun x => x < 256) _ _ i ?_ (by norm_num)
  intro x hx
  simp only [sha256, List.mem_flatten, List.mem_map] at hx
  obtain ⟨l, ⟨w, _, rfl⟩, hx⟩ := hx
  simp only [wordBytes, List.mem_cons, List.not_mem_nil, or_false] at hx
  rcases hx with rfl | rfl | rfl | rfl <;> exact Nat.mod_lt _ (by norm_num)

/-- Reading a list back out of `getD` accesses over its index range
reproduces the list. -/
theorem map_range_getD (l : List ℕ) :
    (List.range l.length).map (fun i => l.getD i 0) = l := by
  apply List.ext_getElem
  · simp
  · intro i h1 h2
    simp only [List.getElem_map, List.getElem_range]
    exact List.getD_eq_getElem l 0 h2

/-- Synthesis propagates a failing real pass of the region callback. -/
theorem synthesize_eq_error (c : CertificateVerificationCircuit)
    (e : SynthError) (h : regionMain c = .error e) :
    synthesize c = .error e := by
  unfold synthesize regionAssign SKIP_FIRST_PASS
  simp [h]

/-- Synthesis binds the instance columns from a successful real pass of
the region callback. -/
theorem synthesize_eq_ok_of (c : CertificateVerificationCircuit)
    (reg : RegionOutput) (h : regionMain c = .ok reg) :
    synthesize c = .ok (bindInstances c reg) := by
  unfold synthesize regionAssign SKIP_FIRST_PASS
  simp [h]

/-- Inversion for the region callback: a successful real pass returns
exactly the main region output. -/
theorem regionMain_ok_inv (c : CertificateVerificationCircuit)
    (reg : RegionOutput) (h : regionMain c = .ok reg) :
    reg = mainRegionOutput c := by
  unfold regionMain at h
  split_ifs at h
  injection h with h
  exact h.symm

/-- Inversion for synthesis: any successful synthesis produces the
canonical output. -/
theorem synthesize_ok_inv (c : CertificateVerificationCircuit)
    (out : SynthOutput) (h : synthesize c = .ok out) :
    out = synthOutput c := by
  rcases hreg : regionMain c with e | reg
  · rw [synthesize_eq_error c e hreg] at h
    simp at h
  · have h2 := (synthesize_eq_ok_of c reg hreg).symm.trans h
    have h3 : bindInstances c reg = out := Eq.mp (Except.ok.injEq _ _) h2
    rw [← h3, regionMain_ok_inv c reg hreg]
    rfl

/-- Synthesis succeeds when the witness checks pass. -/
theorem synthesize_eq_ok (c : CertificateVerificationCircuit)
    (h1 : c.n_big < 2 ^ BITS_LEN) (h2 : c.sign_big < 2 ^ BITS_LEN)
    (h3 : c.msg.length ≤ MSG_LEN)
    (h4 : c.msg.all (fun b => decide (b < 256)) = true) :
    synthesize c = .ok (synthOutput c) := by
  have h : regionMain c = .ok (mainRegionOutput c) := by
    unfold regionMain
    rw [if_pos h1, if_pos h2, if_pos h3, if_pos h4]
  rw [synthesize_eq_ok_of c _ h]
  rfl

/-- A convenient decomposition-at-threshold form of the modulus bound,
with both exponents small enough for literal evaluation. -/
theorem two_pow_BITS_LEN : (2 : ℕ) ^ BITS_LEN = (2 ^ 128) ^ 16 := by
  rw [← pow_mul]
  congr 1

/-- The verification flag is 1 for a valid signature. -/
theorem isValidFlag_one (c : CertificateVerificationCircuit)
    (hn : 0 < c.n_big)
    (hsig : c.sign_big ^ DEFAULT_E % c.n_big = emsaPkcs1v15Nat (sha256 c.msg)) :
    isValidFlag c = 1 := by
  unfold isValidFlag verify_pkcs1v15_signature
  rw [powMod_eq _ _ _ hn, if_pos hsig]

/-- The verification flag is 0 for an invalid signature. -/
theorem isValidFlag_zero (c : CertificateVerificationCircuit)
    (hn : 0 < c.n_big)
    (hsig : c.sign_big ^ DEFAULT_E % c.n_big ≠ emsaPkcs1v15Nat (sha256 c.msg)) :
    isValidFlag c = 0 := by
  unfold isValidFlag verify_pkcs1v15_signature
  rw [powMod_eq _ _ _ hn, if_neg hsig]

/-- All range-check constraints hold at the canonical assignment, so the
synthesized circuit is satisfiable exactly when the verification flag
equals 1. -/
theorem satisfiable_eq_flag (c : CertificateVerificationCircuit)
    (hbytes : c.msg.all (fun b => decide (b < 256)) = true) :
    satisfiable c (synthOutput c) = (isValidFlag c == 1) := by
  have hmsgD : ∀ i, c.msg.getD i 0 < 256 := by
    intro i
    refine @getD_prop (fun x => x < 256) _ _ i ?_ (by norm_num)
    intro x hx
    exact of_decide_eq_true (List.all_eq_true.mp hbytes x hx)
  have hA : ((List.range 32).map
      (fun i => Constraint.rangeCheck (.nLimb i) LIMB_BITS)).all
        (evalConstraint (assignment c)) = true := by
    rw [List.all_eq_true]
    intro x hx
    simp only [List.mem_map, List.mem_range] at hx
    obtain ⟨i, _, rfl⟩ := hx
    simp only [evalConstraint, assignment, LIMB_BITS]
    exact decide_eq_true (decompose_biguint_getD_lt _ _ _ _)
  have hB : ((List.range 32).map
      (fun i => Constraint.rangeCheck (.signLimb i) LIMB_BITS)).all
        (evalConstraint (assignment c)) = true := by
    rw [List.all_eq_true]
    intro x hx
    simp only [List.mem_map, List.mem_range] at hx
    obtain ⟨i, _, rfl⟩ := hx
    simp only [evalConstraint, assignment, LIMB_BITS]
    exact decide_eq_true (decompose_biguint_getD_lt _ _ _ _)
  have hC : ((List.range c.msg.length).map
      (fun i => Constraint.rangeCheck (.msgByte i) 8)).all
        (evalConstraint (assignment c)) = true := by
    rw [List.all_eq_true]
    intro x hx
    simp only [List.mem_map, List.mem_range] at hx
    obtain ⟨i, _, rfl⟩ := hx
    simp only [evalConstraint, assignment]
    exact decide_eq_true (by rw [show (2:ℕ) ^ 8 = 256 by norm_num]; exact hmsgD i)
  have hD : ((List.range 32).map
      (fun i => Constraint.rangeCheck (.digestByte i) 8)).all
        (evalConstraint (assignment c)) = true := by
    rw [List.all_eq_true]
    intro x hx
    simp only [List.mem_map, List.mem_range] at hx
    obtain ⟨i, _, rfl⟩ := hx
    simp only [evalConstraint, assignment]
    exact decide_eq_true
      (by rw [show (2:ℕ) ^ 8 = 256 by norm_num]; exact sha256_getD_lt c.msg i)
  simp only [satisfiable, synthOutput, bindInstances, mainRegionOutput,
    List.all_append, hA, hB, hC, hD, Bool.true_and]
  simp [evalConstraint, assignment]

/-- The modulus instance column carries exactly the limb decomposition
of the modulus. -/
theorem nInstanceVals_eq (c : CertificateVerificationCircuit) :
    (synthOutput c).nInstanceVals = decompose_biguint c.n_big 32 64 := by
  have hlen := decompose_biguint_length c.n_big 32 64
  simp only [synthOutput, bindInstances, mainRegionOutput, List.map_map]
  have h : (fun i => assignment c (CellTag.nLimb i)) =
      (fun i => (decompose_biguint c.n_big 32 64).getD i 0) := rfl
  calc (List.range 32).map (assignment c ∘ CellTag.nLimb)
      = (List.range (decompose_biguint c.n_big 32 64).length).map
          (fun i => (decompose_biguint c.n_big 32 64).getD i 0) := by
        rw [hlen]
        rfl
    _ = decompose_biguint c.n_big 32 64 := map_range_getD _

/-- The digest instance column carries exactly the digest bytes. -/
theorem hashInstanceVals_eq (c : CertificateVerificationCircuit) :
    (synthOutput c).hashInstanceVals = sha256 c.msg := by
  have hlen := sha256_length c.msg
  simp only [synthOutput, bindInstances, mainRegionOutput, List.map_map]
  calc (List.range 32).map (assignment c ∘ CellTag.digestByte)
      = (List.range (sha256 c.msg).length).map
          (fun i => (sha256 c.msg).getD i 0) := by
        rw [hlen]
        rfl
    _ = sha256 c.msg := map_range_getD _

/-- A 2048-bit RSA modulus (product of two 1024-bit primes) used as a
concrete witness input. -/
def N1 : ℕ := 17333700368577790943756721031771091833285986219570318152291545848179090533425577760955471841415538581462635374876832542086439951294703706643205903022558091161309293211447013499242631488116872391954673748114600071035648429193900306065958672740234154880869710643892754631060091120045097672427392326750067971061074885512220482914021081538810184929235395104738509881441710563324144204273308358754514184815124717082764992235309431539946663159632654830258347327685721905950546449222707198348360592472023217479147409271632857624224346171963321483720558441808152699224349816639425257603075972285389044199382039491200712164579

/-- A valid PKCS#1 v1.5 signature of SHA-256 of the one-byte message
`[97]` under `N1` with exponent 65537. -/
def S1 : ℕ := 13555285596062929558671740175601362647101139227604955277168812971724945617464203409409649539731813867544047524091639007744370371972618900835267200031276004865848152390062483608130548199324131456946182757368837706144574033786557325272616055805232407031132924048567167369669363230877152161773260794811672957635361385359904314982740252564464166925801682931689919862517912015261669470591315377419754360796345079924513964074310703750157231847419399802063937452063906997185499033985620646253109845515887707990009773777953917556480129018968379184131036895316358772659325388337608834671073803403909003211302050180705442538848

/-- C1: for every (n, s, msg) where s is a valid PKCS#1 v1.5 RSA
signature of SHA-256(msg) under modulus n and exponent 65537 (the
witnesses being in range for the circuit), the synthesized circuit is
satisfiable and the exposed public instance equals the pair (64-bit limb
decomposition of n, byte decomposition of SHA-256(msg)). -/
theorem c1_valid_signature_accepted (n s : ℕ) (msg : List ℕ)
    (hn : 0 < n) (hnb : n < 2 ^ BITS_LEN) (hsb : s < 2 ^ BITS_LEN)
    (hlen : msg.length ≤ MSG_LEN)
    (hbytes : msg.all (fun b => decide (b < 256)) = true)
    (hsig : s ^ 65537 % n = emsaPkcs1v15Nat (sha256 msg)) :
    synthesize ⟨n, s, msg⟩ = .ok (synthOutput ⟨n, s, msg⟩) ∧
      satisfiable ⟨n, s, msg⟩ (synthOutput ⟨n, s, msg⟩) = true ∧
      (synthOutput ⟨n, s, msg⟩).nInstanceVals = decompose_biguint n 32 64 ∧
      (synthOutput ⟨n, s, msg⟩).hashInstanceVals = sha256 msg := by
  refine ⟨synthesize_eq_ok _ hnb hsb hlen hbytes, ?_,
    nInstanceVals_eq _, hashInstanceVals_eq _⟩
  rw [satisfiable_eq_flag _ hbytes, isValidFlag_one ⟨n, s, msg⟩ hn hsig]
  decide

/-- Witness for C1: the concrete valid triple (N1, S1, [97]). -/
theorem c1_valid_signature_accepted_witness :
    synthesize ⟨N1, S1, [97]⟩ = .ok (synthOutput ⟨N1, S1, [97]⟩) ∧
      satisfiable ⟨N1, S1, [97]⟩ (synthOutput ⟨N1, S1, [97]⟩) = true ∧
      (synthOutput ⟨N1, S1, [97]⟩).nInstanceVals = decompose_biguint N1 32 64 ∧
      (synthOutput ⟨N1, S1, [97]⟩).hashInstanceVals = sha256 [97] :=
  c1_valid_signature_accepted N1 S1 [97] (by decide)
    (by rw [two_pow_BITS_LEN]; decide) (by rw [two_pow_BITS_LEN]; decide)
    (by decide) (by decide)
    (by have hp := powMod_eq S1 65537 N1 (by decide); rw [← hp]; decide)

/-- C2: for every (n, s, msg) where s is NOT a valid PKCS#1 v1.5
signature of SHA-256(msg) under n and exponent 65537, no witness
assignment satisfies all constraints of the synthesized circuit: the
verification-flag constraint fails, so the circuit is unsatisfiable
rather than a success or a silently coerced result. -/
theorem c2_invalid_signature_unsatisfiable (n s : ℕ) (msg : List ℕ)
    (hn : 0 < n) (hnb : n < 2 ^ BITS_LEN) (hsb : s < 2 ^ BITS_LEN)
    (hlen : msg.length ≤ MSG_LEN)
    (hbytes : msg.all (fun b => decide (b < 256)) = true)
    (hsig : s ^ 65537 % n ≠ emsaPkcs1v15Nat (sha256 msg)) :
    synthesize ⟨n, s, msg⟩ = .ok (synthOutput ⟨n, s, msg⟩) ∧
      satisfiable ⟨n, s, msg⟩ (synthOutput ⟨n, s, msg⟩) = false := by
  refine ⟨synthesize_eq_ok _ hnb hsb hlen hbytes, ?_⟩
  rw [satisfiable_eq_flag _ hbytes, isValidFlag_zero ⟨n, s, msg⟩ hn hsig]
  decide

/-- Witness for C2: the concrete invalid triple (3, 2, []). -/
theorem c2_invalid_signature_unsatisfiable_witness :
    synthesize ⟨3, 2, []⟩ = .ok (synthOutput ⟨3, 2, []⟩) ∧
      satisfiable ⟨3, 2, []⟩ (synthOutput ⟨3, 2, []⟩) = false :=
  c2_invalid_signature_unsatisfiable 3 2 [] (by decide)
    (by rw [two_pow_BITS_LEN]; decide) (by rw [two_pow_BITS_LEN]; decide)
    (by decide) (by decide)
    (by have hp := powMod_eq 2 65537 3 (by decide); rw [← hp]; decide)

/-- Shared witness fact: synthesis succeeds on the sample circuit. -/
theorem synthesize_sample_ok :
    synthesize sampleCircuit = .ok (synthOutput sampleCircuit) :=
  synthesize_eq_ok sampleCircuit (by rw [two_pow_BITS_LEN]; decide)
    (by rw [two_pow_BITS_LEN]; decide) (by decide) (by decide)

/-- C3: for every synthesis the public instance consists of exactly two
ordered lists constrained in this exact order into two distinct instance
columns: first the 32 modulus limbs (2048-bit modulus at 64-bit limbs)
in limb index order, then the 32 digest bytes, one field element per
byte, in digest byte order. -/
theorem c3_public_instance_layout (c : CertificateVerificationCircuit)
    (out : SynthOutput) (h : synthesize c = .ok out) :
    out.instanceBindings =
      ((List.range 32).map fun i => (configure.n_instance, i, CellTag.nLimb i))
        ++ ((List.range 32).map fun i =>
              (configure.hash_instance, i, CellTag.digestByte i)) ∧
      out.nInstanceVals = decompose_biguint c.n_big 32 64 ∧
      out.nInstanceVals.length = 32 ∧
      out.hashInstanceVals = sha256 c.msg ∧
      out.hashInstanceVals.length = 32 ∧
      configure.n_instance ≠ configure.hash_instance := by
  rw [synthesize_ok_inv c out h]
  refine ⟨rfl, nInstanceVals_eq c, ?_, hashInstanceVals_eq c, ?_,
    by decide⟩
  · rw [nInstanceVals_eq c]
    exact decompose_biguint_length _ _ _
  · rw [hashInstanceVals_eq c]
    exact sha256_length _

/-- Witness for C3 at the sample circuit. -/
theorem c3_public_instance_layout_witness :
    (synthOutput sampleCircuit).instanceBindings =
      ((List.range 32).map fun i => (configure.n_instance, i, CellTag.nLimb i))
        ++ ((List.range 32).map fun i =>
              (configure.hash_instance, i, CellTag.digestByte i)) ∧
      (synthOutput sampleCircuit).nInstanceVals =
        decompose_biguint sampleCircuit.n_big 32 64 ∧
      (synthOutput sampleCircuit).nInstanceVals.length = 32 ∧
      (synthOutput sampleCircuit).hashInstanceVals = sha256 sampleCircuit.msg ∧
      (synthOutput sampleCircuit).hashInstanceVals.length = 32 ∧
      configure.n_instance ≠ configure.hash_instance :=
  c3_public_instance_layout sampleCircuit (synthOutput sampleCircuit)
    synthesize_sample_ok

/-- C4: for every synthesis the verification flag is constrained to
equal the multiplicative identity (1) by an `assert_is_const`
constraint, and the flag cell is never copied into a public instance
column. -/
theorem c4_flag_constrained_not_exposed (c : CertificateVerificationCircuit)
    (out : SynthOutput) (h : synthesize c = .ok out) :
    Constraint.cellEqConst CellTag.validFlag 1 ∈ out.region.constraints ∧
      out.instanceBindings.all
        (fun p => !(p.2.2 == CellTag.validFlag)) = true := by
  rw [synthesize_ok_inv c out h]
  constructor
  · simp [synthOutput, bindInstances, mainRegionOutput]
  · rfl

/-- Witness for C4 at the sample circuit. -/
theorem c4_flag_constrained_not_exposed_witness :
    Constraint.cellEqConst CellTag.validFlag 1 ∈
        (synthOutput sampleCircuit).region.constraints ∧
      (synthOutput sampleCircuit).instanceBindings.all
        (fun p => !(p.2.2 == CellTag.validFlag)) = true :=
  c4_flag_constrained_not_exposed sampleCircuit (synthOutput sampleCircuit)
    synthesize_sample_ok

/-- C5: the circuit parameters are compile-time constants, not runtime
inputs: modulus bit length 2048, limb width 64 bits, fixed public
exponent 65537 baked into the circuit for every synthesis, maximum
message length 1280 bytes, and a power-of-two row count 2^16. -/
theorem c5_circuit_parameters :
    BITS_LEN = 2048 ∧ LIMB_BITS = 64 ∧ DEFAULT_E = 65537 ∧
      MSG_LEN = 1280 ∧ DEGREE = 16 ∧ numRows = 2 ^ 16 ∧
      ∀ c out, synthesize c = .ok out → out.region.exponent = DEFAULT_E := by
  refine ⟨rfl, rfl, rfl, rfl, rfl, rfl, ?_⟩
  intro c out h
  rw [synthesize_ok_inv c out h]
  rfl

/-- Witness for C5: the fixed exponent at the sample circuit. -/
theorem c5_circuit_parameters_witness :
    (synthOutput sampleCircuit).region.exponent = DEFAULT_E :=
  c5_circuit_parameters.2.2.2.2.2.2 sampleCircuit (synthOutput sampleCircuit)
    synthesize_sample_ok

/-- C6: synthesis performs its steps in order (hash-gadget tables,
range-check table, assign public key, assign signature, verify, assert
flag, finalize range checks, then the instance copies — modulus limbs
before digest bytes), and the first invocation of the region callback
performs no allocation and returns empty results. -/
theorem c6_synthesis_order (c : CertificateVerificationCircuit)
    (out : SynthOutput) (h : synthesize c = .ok out) :
    out.trace = [SynthStep.loadSha256Tables, SynthStep.loadRangeLookupTable,
        SynthStep.assignPublicKeyStep, SynthStep.assignSignatureStep,
        SynthStep.verifySignatureStep, SynthStep.assertFlagStep,
        SynthStep.finalizeRangeStep]
      ++ (List.range 32).map SynthStep.constrainNInstance
      ++ (List.range 32).map SynthStep.constrainHashInstance ∧
      regionAssign c true = .ok emptyRegionOutput ∧
      emptyRegionOutput.allocatedCells = [] ∧
      emptyRegionOutput.public_key_cells = [] ∧
      emptyRegionOutput.hashed_msg_cells = [] := by
  rw [synthesize_ok_inv c out h]
  exact ⟨rfl, rfl, rfl, rfl, rfl⟩

/-- Witness for C6 at the sample circuit. -/
theorem c6_synthesis_order_witness :
    (synthOutput sampleCircuit).trace =
      [SynthStep.loadSha256Tables, SynthStep.loadRangeLookupTable,
        SynthStep.assignPublicKeyStep, SynthStep.assignSignatureStep,
        SynthStep.verifySignatureStep, SynthStep.assertFlagStep,
        SynthStep.finalizeRangeStep]
      ++ (List.range 32).map SynthStep.constrainNInstance
      ++ (List.range 32).map SynthStep.constrainHashInstance ∧
      regionAssign sampleCircuit true = .ok emptyRegionOutput ∧
      emptyRegionOutput.allocatedCells = [] ∧
      emptyRegionOutput.public_key_cells = [] ∧
      emptyRegionOutput.hashed_msg_cells = [] :=
  c6_synthesis_order sampleCircuit (synthOutput sampleCircuit)
    synthesize_sample_ok

/-- C7: a message of exactly the configured maximum length (1280 bytes)
synthesizes successfully, and every longer message is rejected at
witness-preparation time with an error, before any circuit output is
produced. -/
theorem c7_msg_length_boundary (c : CertificateVerificationCircuit) :
    (c.n_big < 2 ^ BITS_LEN → c.sign_big < 2 ^ BITS_LEN →
      c.msg.all (fun b => decide (b < 256)) = true →
      c.msg.length = MSG_LEN →
      synthesize c = .ok (synthOutput c)) ∧
    (MSG_LEN < c.msg.length →
      synthesize c = .error SynthError.msgTooLong ∨
        synthesize c = .error SynthError.witnessRange) := by
  constructor
  · intro h1 h2 h4 hlen
    exact synthesize_eq_ok c h1 h2 (le_of_eq hlen) h4
  · intro hlong
    have hnot : ¬ c.msg.length ≤ MSG_LEN := by omega
    by_cases h1 : c.n_big < 2 ^ BITS_LEN
    · by_cases h2 : c.sign_big < 2 ^ BITS_LEN
      · left
        apply synthesize_eq_error
        unfold regionMain
        rw [if_pos h1, if_pos h2, if_neg hnot]
      · right
        apply synthesize_eq_error
        unfold regionMain
        rw [if_pos h1, if_neg h2]
    · right
      apply synthesize_eq_error
      unfold regionMain
      rw [if_neg h1]

/-- Witness for C7: a 1280-byte message synthesizes, a 1281-byte message
is rejected. -/
theorem c7_msg_length_boundary_witness :
    synthesize ⟨1, 0, List.replicate 1280 0⟩ =
      .ok (synthOutput ⟨1, 0, List.replicate 1280 0⟩) ∧
    (synthesize ⟨1, 0, List.replicate 1281 0⟩ =
        .error SynthError.msgTooLong ∨
      synthesize ⟨1, 0, List.replicate 1281 0⟩ =
        .error SynthError.witnessRange) :=
  ⟨(c7_msg_length_boundary ⟨1, 0, List.replicate 1280 0⟩).1
      (by rw [two_pow_BITS_LEN]; decide) (by rw [two_pow_BITS_LEN]; decide)
      (by decide) (by decide),
    (c7_msg_length_boundary ⟨1, 0, List.replicate 1281 0⟩).2 (by decide)⟩

/-- C8: synthesis is deterministic — any two circuits with identical
(n, s, msg) inputs produce identical synthesis results (hence identical
constraints, traces and public instances) and identical assigned cell
values. -/
theorem c8_synthesis_deterministic
    (c1 c2 : CertificateVerificationCircuit)
    (hn : c1.n_big = c2.n_big) (hs : c1.sign_big = c2.sign_big)
    (hm : c1.msg = c2.msg) :
    synthesize c1 = synthesize c2 ∧ assignment c1 = assignment c2 := by
  obtain ⟨n1, s1, m1⟩ := c1
  obtain ⟨n2, s2, m2⟩ := c2
  have hn2 : n1 = n2 := hn
  have hs2 : s1 = s2 := hs
  have hm2 : m1 = m2 := hm
  subst hn2
  subst hs2
  subst hm2
  exact ⟨rfl, rfl⟩

/-- Witness for C8 at the sample circuit. -/
theorem c8_synthesis_deterministic_witness :
    synthesize sampleCircuit = synthesize sampleCircuit ∧
      assignment sampleCircuit = assignment sampleCircuit :=
  c8_synthesis_deterministic sampleCircuit sampleCircuit rfl rfl rfl

/-- Cell tags that the instance binding is allowed to expose. -/
def isPublicInstanceTag : CellTag → Bool
  | .nLimb _ => true
  | .digestByte _ => true
  | _ => false

/-- Cell tags holding private witness data: signature limbs and raw
message bytes. -/
def isPrivateWitnessTag : CellTag → Bool
  | .signLimb _ => true
  | .msgByte _ => true
  | _ => false

/-- C9: the private witness inputs — the signature (its limb cells) and
the raw message bytes — never appear in the public instance; every
exposed cell is a modulus-limb cell or a digest-byte cell. -/
theorem c9_private_witnesses_not_exposed (c : CertificateVerificationCircuit)
    (out : SynthOutput) (h : synthesize c = .ok out) :
    out.instanceBindings.all
        (fun p => !(isPrivateWitnessTag p.2.2)) = true ∧
      out.instanceBindings.all
        (fun p => isPublicInstanceTag p.2.2) = true := by
  rw [synthesize_ok_inv c out h]
  exact ⟨rfl, rfl⟩

/-- Witness for C9 at the sample circuit. -/
theorem c9_private_witnesses_not_exposed_witness :
    (synthOutput sampleCircuit).instanceBindings.all
        (fun p => !(isPrivateWitnessTag p.2.2)) = true ∧
      (synthOutput sampleCircuit).instanceBindings.all
        (fun p => isPublicInstanceTag p.2.2) = true :=
  c9_private_witnesses_not_exposed sampleCircuit (synthOutput sampleCircuit)
    synthesize_sample_ok

/-- C10: `without_witnesses` panics unconditionally (it is
`unimplemented!()`), so no caller can obtain a witness-free copy of the
circuit. -/
theorem c10_without_witnesses_panics (c : CertificateVerificationCircuit) :
    without_witnesses c = .error RustPanic.notImplemented := rfl

end ZkCert
